import Mathlib

/-!
Verification of the OTP email-verification service
(`emailVerificationService` in `src/services/emailVerificationService.ts`,
backed by the `email_verifications` table of `src/db/schema.ts`).

The persistent store is modelled as a list of rows of the
`email_verifications` table; the drizzle calls used by the service
(`select ... where eq(email)`, `update ... set ... where eq(email)`,
`insert`, `delete ... where eq(email)`, `delete ... where expiresAt < NOW()`)
are modelled as list operations on that list.  Timestamps are naturals
(milliseconds since the epoch, as produced by `Date.now()`); the OTP code
is a string, exactly as stored in the `otp` text column and compared by
`record.otp !== otp`.

The `id` (random UUID primary key) and `createdAt` (informational) columns
of the table are never read by the service and are omitted from the row
model.
-/

namespace OTP

/-- A row of the `email_verifications` table (`src/db/schema.ts`):
`email` (unique), `otp` (text), `attempts` (integer, default 0),
`expiresAt` (timestamp, modelled as ms since epoch). -/
structure VerificationRecord where
  email : String
  otp : String
  attempts : Nat
  expiresAt : Nat
deriving Repr, DecidableEq

/-- The `email_verifications` table contents. -/
abbrev Store := List VerificationRecord

/-- Models `db.select().from(emailVerifications).where(eq(emailVerifications.email, email))`. -/
def selectByEmail (s : Store) (email : String) : List VerificationRecord :=
  s.filter (fun r => r.email = email)

/-- Models `db.update(emailVerifications).set(...).where(eq(emailVerifications.email,
email))`: applies the field update `f` to every row whose `email` column matches. -/
def updateByEmail (s : Store) (email : String)
    (f : VerificationRecord → VerificationRecord) : Store :=
  s.map (fun r => if r.email = email then f r else r)

/-- Models `db.delete(emailVerifications).where(eq(emailVerifications.email, email))`. -/
def deleteByEmail (s : Store) (email : String) : Store :=
  s.filter (fun r => ¬ r.email = email)

/-- The first row returned for an email (`records[0]`), if any. -/
def getRecord (s : Store) (email : String) : Option VerificationRecord :=
  (selectByEmail s email).head?

/-- The schema's `unique()` constraint on the `email` column: no two rows
share an email.  (The DB enforces this; the list model has to state it.) -/
def uniqueEmails (s : Store) : Prop :=
  s.Pairwise (fun a b => a.email ≠ b.email)

instance (s : Store) : Decidable (uniqueEmails s) := by
  unfold uniqueEmails; infer_instance

/-- Node's `crypto.randomInt(lo, hi)`: a uniformly distributed integer in
the half-open range `[lo, hi)` (`hi` is *exclusive* per the Node API).  The
randomness is externalised into the argument `r`; as `r` ranges over
`0, ..., hi - lo - 1` the result ranges over exactly `[lo, hi)`, each value
hit once per residue class of `r`. -/
def cryptoRandomInt (lo hi r : Nat) : Nat :=
  lo + r % (hi - lo)

/-- The character for a decimal digit `d`: `'0'` for 0, ..., `'9'` for 9. -/
def decimalDigitChar (d : Nat) : Char :=
  Char.ofNat (48 + d)

/-- The digit characters of `n` in decimal, most significant first;
`['0']` for 0. -/
def decimalDigitChars (n : Nat) : List Char :=
  if n = 0 then [Char.ofNat 48]
  else ((Nat.digits 10 n).reverse).map decimalDigitChar

/-- JS `Number.prototype.toString()` on a non-negative integer: its
decimal representation. -/
def toDecimalString (n : Nat) : String :=
  String.mk (decimalDigitChars n)

/-- The module-level `generateOTP` helper (line 6 of the service):
`crypto.randomInt(100000, 999999).toString()`. -/
def generateOTP (r : Nat) : String :=
  toDecimalString (cryptoRandomInt 100000 999999 r)

/-- The ten-minute expiry window: `10 * 60 * 1000` ms. -/
def expiryWindowMs : Nat := 10 * 60 * 1000

/-- The service method `emailVerificationService.generateOTP(email)` (the
spec's `issue` operation).  `now` is `Date.now()` and `r` the randomness consumed by
`crypto.randomInt`.  Returns the generated code and the new store:
if rows for the email exist they are overwritten (`set {otp, expiresAt,
attempts: 0}`), otherwise a fresh row is inserted. -/
def generateOTPService (s : Store) (email : String) (r : Nat) (now : Nat) :
    String × Store :=
  let otp := generateOTP r
  let expiresAt := now + expiryWindowMs
  let existing := selectByEmail s email
  if existing.length > 0 then
    (otp, updateByEmail s email (fun x =>
      { x with otp := otp, expiresAt := expiresAt, attempts := 0 }))
  else
    (otp, s ++ [{ email := email, otp := otp, expiresAt := expiresAt, attempts := 0 }])

/-- The outcome of `verifyOTP`, one constructor per `throw` site plus
success (the service throws `Error` with a distinct message for each). -/
inductive VerifyResult where
  | notFound
  | expired
  | tooManyAttempts
  | invalidCode
  | success
deriving Repr, DecidableEq

/-- The service method `emailVerificationService.verifyOTP(email, otp)`
(the spec's `verify` operation).  `now` is `new Date()`.  Returns the outcome and the store
after the call:
* no row for the email: throws `OTP not found`, no write;
* `new Date() > record.expiresAt`: throws `OTP has expired`, no write;
* `record.attempts >= 3`: throws `Too many attempts`, no write;
* `record.otp !== otp`: sets `attempts` to `record.attempts + 1` and
  throws `Invalid OTP`;
* otherwise: deletes the row(s) for the email and returns `true`. -/
def verifyOTP (s : Store) (email : String) (otp : String) (now : Nat) :
    VerifyResult × Store :=
  match selectByEmail s email with
  | [] => (.notFound, s)
  | record :: _ =>
    if now > record.expiresAt then
      (.expired, s)
    else if record.attempts ≥ 3 then
      (.tooManyAttempts, s)
    else if record.otp ≠ otp then
      (.invalidCode, updateByEmail s email (fun x => { x with attempts := record.attempts + 1 }))
    else
      (.success, deleteByEmail s email)

/-- The service method `emailVerificationService.cleanupExpiredOTPs()` (the
spec's `sweepExpired` operation): `delete ... where expiresAt < NOW()`.  The surrounding
`try/catch` swallows any DB error (it only logs), so the operation is
total and never propagates a failure; the model is the pure delete. -/
def cleanupExpiredOTPs (s : Store) (now : Nat) : Store :=
  s.filter (fun r => ¬ r.expiresAt < now)

/-! Basic facts about the store operations. -/

theorem email_of_mem_selectByEmail {s : Store} {email : String} {r : VerificationRecord}
    (h : r ∈ selectByEmail s email) : r.email = email := by
  have := (List.mem_filter.mp h).2
  simpa using this

theorem getRecord_eq_none_iff (s : Store) (email : String) :
    getRecord s email = none ↔ selectByEmail s email = [] := by
  unfold getRecord
  cases selectByEmail s email <;> simp

/-- Restates `verifyOTP` through `getRecord` (the `records[0]` read). -/
theorem verifyOTP_eq (s : Store) (email otp : String) (now : Nat) :
    verifyOTP s email otp now =
      match getRecord s email with
      | none => (.notFound, s)
      | some record =>
        if now > record.expiresAt then
          (.expired, s)
        else if record.attempts ≥ 3 then
          (.tooManyAttempts, s)
        else if record.otp ≠ otp then
          (.invalidCode, updateByEmail s email (fun x => { x with attempts := record.attempts + 1 }))
        else
          (.success, deleteByEmail s email) := by
  unfold verifyOTP getRecord
  cases selectByEmail s email <;> rfl

theorem selectByEmail_updateByEmail (s : Store) (email : String)
    (f : VerificationRecord → VerificationRecord)
    (hf : ∀ x, (f x).email = x.email) :
    selectByEmail (updateByEmail s email f) email = (selectByEmail s email).map f := by
  induction s with
  | nil => rfl
  | cons a t ih =>
    unfold selectByEmail updateByEmail at *
    by_cases h : a.email = email
    · simp [List.filter_cons, hf, h, ih]
    · simp [List.filter_cons, hf, h, ih]

theorem getRecord_updateByEmail (s : Store) (email : String)
    (f : VerificationRecord → VerificationRecord)
    (hf : ∀ x, (f x).email = x.email) :
    getRecord (updateByEmail s email f) email = (getRecord s email).map f := by
  unfold getRecord
  rw [selectByEmail_updateByEmail s email f hf]
  cases selectByEmail s email <;> rfl

theorem selectByEmail_deleteByEmail (s : Store) (email : String) :
    selectByEmail (deleteByEmail s email) email = [] := by
  unfold selectByEmail deleteByEmail
  rw [List.filter_filter]
  apply List.filter_eq_nil_iff.mpr
  intro a _
  simp

theorem getRecord_deleteByEmail (s : Store) (email : String) :
    getRecord (deleteByEmail s email) email = none := by
  rw [getRecord_eq_none_iff]
  exact selectByEmail_deleteByEmail s email

theorem mem_updateByEmail {s : Store} {email : String}
    {f : VerificationRecord → VerificationRecord} {r : VerificationRecord}
    (h : r ∈ updateByEmail s email f) :
    ∃ x ∈ s, r = if x.email = email then f x else x := by
  obtain ⟨x, hx, hr⟩ := List.mem_map.mp h
  exact ⟨x, hx, hr.symm⟩

theorem mem_deleteByEmail {s : Store} {email : String} {r : VerificationRecord}
    (h : r ∈ deleteByEmail s email) : r ∈ s :=
  (List.mem_filter.mp h).1

theorem selectByEmail_length_le_one (s : Store) (email : String)
    (hu : uniqueEmails s) : (selectByEmail s email).length ≤ 1 := by
  induction s with
  | nil => simp [selectByEmail]
  | cons a t ih =>
    rw [uniqueEmails, List.pairwise_cons] at hu
    obtain ⟨ha, ht⟩ := hu
    unfold selectByEmail at *
    by_cases h : a.email = email
    · have hnil : t.filter (fun r => r.email = email) = [] := by
        apply List.filter_eq_nil_iff.mpr
        intro b hb
        simp only [decide_eq_true_eq]
        intro hbe
        exact ha b hb (by rw [h, hbe])
      simp [List.filter_cons, h, hnil]
    · simp only [List.filter_cons]
      simp only [h, decide_eq_true_eq, if_false, decide_eq_false_iff_not, not_false_eq_true]
      exact ih ht

/-! The claims. -/

/-- C2: every `verifyOTP` call has exactly one of the five outcomes, and the
guards are evaluated in the fixed order existence, then expiry, then
lockout, then code match: each outcome holds exactly when its own guard
fires and every earlier guard did not. -/
theorem C2_verify_outcome_characterisation (s : Store) (email otp : String) (now : Nat) :
    ((verifyOTP s email otp now).1 = .notFound ↔ getRecord s email = none) ∧
    ((verifyOTP s email otp now).1 = .expired ↔
      ∃ record, getRecord s email = some record ∧ now > record.expiresAt) ∧
    ((verifyOTP s email otp now).1 = .tooManyAttempts ↔
      ∃ record, getRecord s email = some record ∧ ¬ now > record.expiresAt ∧
        record.attempts ≥ 3) ∧
    ((verifyOTP s email otp now).1 = .invalidCode ↔
      ∃ record, getRecord s email = some record ∧ ¬ now > record.expiresAt ∧
        record.attempts < 3 ∧ record.otp ≠ otp) ∧
    ((verifyOTP s email otp now).1 = .success ↔
      ∃ record, getRecord s email = some record ∧ ¬ now > record.expiresAt ∧
        record.attempts < 3 ∧ record.otp = otp) := by
  rw [verifyOTP_eq]
  cases h : getRecord s email with
  | none => simp
  | some record =>
    dsimp only
    split_ifs with h1 h2 h3 <;> simp_all

/-- C1, amended: a lockout (`attempts >= 3`) on a *non-expired* record is
rejected with `TooManyAttempts` whatever code is submitted, with no write;
and no `verifyOTP` call ever pushes any stored `attempts` counter past 3,
so the counter never exceeds 3 under any sequence of `verifyOTP` calls.
(The unamended claim fails when the locked record is also expired: the
expiry guard fires first.) -/
theorem C1_locked_no_write (s : Store) (email otp : String) (now : Nat) :
    (∀ record, getRecord s email = some record → record.attempts ≥ 3 →
        ¬ now > record.expiresAt → verifyOTP s email otp now = (.tooManyAttempts, s)) ∧
    ((∀ r ∈ s, r.attempts ≤ 3) → ∀ r ∈ (verifyOTP s email otp now).2, r.attempts ≤ 3) := by
  constructor
  · intro record hrec hlock hexp
    rw [verifyOTP_eq, hrec]
    simp [hexp, hlock]
  · intro hb r hr
    rw [verifyOTP_eq] at hr
    cases h : getRecord s email with
    | none =>
      rw [h] at hr
      exact hb r hr
    | some record =>
      rw [h] at hr
      dsimp only at hr
      split_ifs at hr with h1 h2 h3
      · exact hb r hr
      · exact hb r hr
      · obtain ⟨x, hx, hrx⟩ := mem_updateByEmail hr
        by_cases he : x.email = email
        · rw [if_pos he] at hrx
          subst hrx
          show record.attempts + 1 ≤ 3
          omega
        · rw [if_neg he] at hrx
          subst hrx
          exact hb _ hx
      · exact hb r (mem_deleteByEmail hr)

/-- C1 counterexample: a record with `attempts >= 3` that is also past its
expiry is rejected with `Expired`, not `TooManyAttempts` — the claim as
stated fails for it. -/
theorem C1_counterexample :
    getRecord [⟨"a@x.com", "123456", 3, 1000⟩] "a@x.com" =
      some ⟨"a@x.com", "123456", 3, 1000⟩ ∧
    (3 : Nat) ≥ 3 ∧
    (verifyOTP [⟨"a@x.com", "123456", 3, 1000⟩] "a@x.com" "123456" 2000).1 = .expired ∧
    VerifyResult.expired ≠ .tooManyAttempts :=
  ⟨rfl, by decide, rfl, by decide⟩

/-- C1 witness: a concrete locked, unexpired record is rejected with
`TooManyAttempts` and the store is unchanged. -/
theorem C1_witness :
    verifyOTP [⟨"a@x.com", "123456", 3, 5000⟩] "a@x.com" "000000" 2000 =
      (.tooManyAttempts, [⟨"a@x.com", "123456", 3, 5000⟩]) :=
  (C1_locked_no_write [⟨"a@x.com", "123456", 3, 5000⟩] "a@x.com" "000000" 2000).1
    ⟨"a@x.com", "123456", 3, 5000⟩ rfl (by decide) (by decide)

/-- C6, amended: a `verifyOTP` call *strictly after* `expiresAt`
(`now > expiresAt`, the guard the code uses) fails with `Expired` whatever
code is submitted, the matching one included.  (The unamended claim also
covers the instant `now = expiresAt`, where the code still accepts.) -/
theorem C6_expired_rejected (s : Store) (email otp : String) (now : Nat)
    (record : VerificationRecord) (hrec : getRecord s email = some record)
    (hexp : now > record.expiresAt) :
    verifyOTP s email otp now = (.expired, s) := by
  rw [verifyOTP_eq, hrec]
  simp [hexp]

/-- C6 counterexample: at `now = expiresAt` exactly, the matching code is
*accepted*, where the claim as stated demands an `Expired` failure. -/
theorem C6_counterexample :
    (verifyOTP [⟨"a@x.com", "123456", 0, 1000⟩] "a@x.com" "123456" 1000).1 = .success ∧
    VerifyResult.success ≠ .expired :=
  ⟨rfl, by decide⟩

/-- C6 witness: one millisecond past expiry, the matching code is rejected
with `Expired` and the record is left in place. -/
theorem C6_witness :
    verifyOTP [⟨"a@x.com", "123456", 0, 1000⟩] "a@x.com" "123456" 1001 =
      (.expired, [⟨"a@x.com", "123456", 0, 1000⟩]) :=
  C6_expired_rejected [⟨"a@x.com", "123456", 0, 1000⟩] "a@x.com" "123456" 1001
    ⟨"a@x.com", "123456", 0, 1000⟩ rfl (by decide)

/-- C7: the `NotFound`, `Expired` and `TooManyAttempts` failures leave the
store exactly as it was (so an expired record stays in place); the
`InvalidCode` failure is the only failure path that writes, and its write
is the attempts-increment update on the email's rows. -/
theorem C7_failures_frame (s : Store) (email otp : String) (now : Nat) :
    ((verifyOTP s email otp now).1 = .notFound ∨
        (verifyOTP s email otp now).1 = .expired ∨
        (verifyOTP s email otp now).1 = .tooManyAttempts →
      (verifyOTP s email otp now).2 = s) ∧
    ((verifyOTP s email otp now).1 = .invalidCode →
      ∃ record, getRecord s email = some record ∧
        (verifyOTP s email otp now).2 =
          updateByEmail s email (fun x => { x with attempts := record.attempts + 1 }) ∧
        getRecord (verifyOTP s email otp now).2 email =
          some { record with attempts := record.attempts + 1 }) := by
  rw [verifyOTP_eq]
  cases h : getRecord s email with
  | none => simp
  | some record =>
    dsimp only
    split_ifs with h1 h2 h3
    · exact ⟨fun _ => rfl, fun hres => by simp at hres⟩
    · exact ⟨fun _ => rfl, fun hres => by simp at hres⟩
    · refine ⟨fun hres => ?_, fun _ => ⟨record, rfl, rfl, ?_⟩⟩
      · rcases hres with hx | hx | hx <;> simp at hx
      · rw [getRecord_updateByEmail s email
          (fun x => { x with attempts := record.attempts + 1 }) (fun x => rfl), h]
        rfl
    · exact ⟨fun hres => by rcases hres with hx | hx | hx <;> simp at hx,
        fun hres => by simp at hres⟩

/-- C7 witness: a `NotFound` failure on the empty store leaves it empty. -/
theorem C7_witness :
    (verifyOTP ([] : Store) "a@x.com" "000000" 0).2 = ([] : Store) :=
  (C7_failures_frame [] "a@x.com" "000000" 0).1 (Or.inl rfl)

theorem selectByEmail_append (s t : Store) (email : String) :
    selectByEmail (s ++ t) email = selectByEmail s email ++ selectByEmail t email :=
  List.filter_append s t

theorem generateOTPService_fst (s : Store) (email : String) (r now : Nat) :
    (generateOTPService s email r now).1 = generateOTP r := by
  unfold generateOTPService
  dsimp only
  split <;> rfl

theorem verifyOTP_success_store (s : Store) (email otp : String) (now : Nat)
    (h : (verifyOTP s email otp now).1 = .success) :
    (verifyOTP s email otp now).2 = deleteByEmail s email := by
  rw [verifyOTP_eq] at h ⊢
  cases hg : getRecord s email with
  | none =>
    rw [hg] at h
    simp at h
  | some record =>
    rw [hg] at h
    dsimp only at h ⊢
    split_ifs at h ⊢ with h1 h2 h3 <;> simp_all

/-- C3: a successful `verifyOTP` deletes the email's record; from then on
every `verifyOTP` for that email — the consumed code included — fails with
`NotFound` and leaves the store unchanged, until a `generateOTP` call
re-creates a record for the email. -/
theorem C3_success_consumes (s : Store) (email otp : String) (now : Nat)
    (h : (verifyOTP s email otp now).1 = .success) :
    getRecord (verifyOTP s email otp now).2 email = none ∧
    (∀ c : String, ∀ now2 : Nat,
      verifyOTP (verifyOTP s email otp now).2 email c now2 =
        (.notFound, (verifyOTP s email otp now).2)) ∧
    (∀ r now2 : Nat,
      getRecord (generateOTPService (verifyOTP s email otp now).2 email r now2).2 email ≠
        none) := by
  rw [verifyOTP_success_store s email otp now h]
  refine ⟨getRecord_deleteByEmail s email, fun c now2 => ?_, fun r now2 => ?_⟩
  · rw [verifyOTP_eq, getRecord_deleteByEmail]
  · unfold generateOTPService
    dsimp only
    rw [selectByEmail_deleteByEmail]
    simp only [List.length_nil, gt_iff_lt, lt_irrefl, if_false]
    intro hcontra
    rw [getRecord_eq_none_iff, selectByEmail_append, selectByEmail_deleteByEmail] at hcontra
    simp [selectByEmail] at hcontra

/-- C3 witness: verifying the freshly issued code on a one-record store
succeeds; the record is gone and the same code is then `NotFound`. -/
theorem C3_witness :
    getRecord (verifyOTP [⟨"a@x.com", "123456", 0, 1000⟩] "a@x.com" "123456" 500).2
        "a@x.com" = none ∧
    verifyOTP (verifyOTP [⟨"a@x.com", "123456", 0, 1000⟩] "a@x.com" "123456" 500).2
        "a@x.com" "123456" 600 =
      (.notFound,
        (verifyOTP [⟨"a@x.com", "123456", 0, 1000⟩] "a@x.com" "123456" 500).2) := by
  have hc := C3_success_consumes [⟨"a@x.com", "123456", 0, 1000⟩] "a@x.com" "123456" 500 rfl
  exact ⟨hc.1, hc.2.1 "123456" 600⟩

/-- C4: after `generateOTP(email)` on a store satisfying the schema's
unique-email constraint, exactly one record exists for the email; it
carries the returned code, `attempts = 0` and `expiresAt = now + 10 min`.
If no record existed a fresh row is appended, otherwise the existing row
is overwritten in place (code and expiry replaced, attempts reset). -/
theorem C4_issue_postcondition (s : Store) (email : String) (r now : Nat)
    (hu : uniqueEmails s) :
    selectByEmail (generateOTPService s email r now).2 email =
      [⟨email, (generateOTPService s email r now).1, 0, now + expiryWindowMs⟩] ∧
    (getRecord s email = none →
      (generateOTPService s email r now).2 =
        s ++ [⟨email, generateOTP r, 0, now + expiryWindowMs⟩]) ∧
    (∀ old, getRecord s email = some old →
      (generateOTPService s email r now).2 =
        updateByEmail s email (fun x =>
          { x with otp := generateOTP r, expiresAt := now + expiryWindowMs,
                   attempts := 0 })) := by
  rw [generateOTPService_fst]
  unfold generateOTPService
  dsimp only
  by_cases hlen : (selectByEmail s email).length > 0
  · rw [if_pos hlen]
    dsimp only
    have hone : (selectByEmail s email).length = 1 := by
      have := selectByEmail_length_le_one s email hu
      omega
    obtain ⟨old, hold⟩ := List.length_eq_one.mp hone
    have hmem : old ∈ selectByEmail s email := by
      rw [hold]; exact List.mem_singleton.mpr rfl
    have hemail : old.email = email := email_of_mem_selectByEmail hmem
    refine ⟨?_, ?_, fun _ _ => rfl⟩
    · rw [selectByEmail_updateByEmail s email
          (fun x => { x with otp := generateOTP r, expiresAt := now + expiryWindowMs,
                             attempts := 0 }) (fun x => rfl), hold]
      simp [hemail]
    · intro hnone
      rw [getRecord_eq_none_iff, hold] at hnone
      exact absurd hnone (by simp)
  · rw [if_neg hlen]
    dsimp only
    have hnil : selectByEmail s email = [] := by
      cases hsel : selectByEmail s email with
      | nil => rfl
      | cons a t => rw [hsel] at hlen; simp at hlen
    refine ⟨?_, fun _ => rfl, fun old hold => ?_⟩
    · rw [selectByEmail_append, hnil]
      simp [selectByEmail]
    · rw [(getRecord_eq_none_iff s email).mpr hnil] at hold
      exact absurd hold (by simp)

/-- C4 witness: issuing to a fresh store creates exactly the one expected
record. -/
theorem C4_witness :
    selectByEmail (generateOTPService [] "a@x.com" 0 0).2 "a@x.com" =
      [⟨"a@x.com", (generateOTPService [] "a@x.com" 0 0).1, 0, 0 + expiryWindowMs⟩] :=
  (C4_issue_postcondition [] "a@x.com" 0 0 (by decide)).1

theorem verifyOTP_invalid_step (s : Store) (email otp : String) (now : Nat)
    (record : VerificationRecord)
    (hrec : getRecord s email = some record)
    (hexp : ¬ now > record.expiresAt)
    (hatt : record.attempts < 3)
    (hne : record.otp ≠ otp) :
    (verifyOTP s email otp now).1 = .invalidCode ∧
    (verifyOTP s email otp now).2 =
      updateByEmail s email (fun x => { x with attempts := record.attempts + 1 }) ∧
    getRecord (verifyOTP s email otp now).2 email =
      some { record with attempts := record.attempts + 1 } := by
  have h2 : ¬ record.attempts ≥ 3 := by omega
  rw [verifyOTP_eq, hrec]
  dsimp only
  rw [if_neg hexp, if_neg h2, if_pos hne]
  refine ⟨rfl, rfl, ?_⟩
  rw [getRecord_updateByEmail s email
    (fun x => { x with attempts := record.attempts + 1 }) (fun x => rfl), hrec]
  rfl

theorem verifyOTP_locked_step (s : Store) (email otp : String) (now : Nat)
    (record : VerificationRecord)
    (hrec : getRecord s email = some record)
    (hexp : ¬ now > record.expiresAt)
    (hatt : record.attempts ≥ 3) :
    verifyOTP s email otp now = (.tooManyAttempts, s) := by
  rw [verifyOTP_eq, hrec]
  dsimp only
  rw [if_neg hexp, if_pos hatt]

/-- C9: starting from a fresh (`attempts = 0`), unexpired record, three
wrong submissions yield `InvalidCode` with the stored attempts counter at
1, 2 and 3 after each call; a fourth submission — any code, the correct
one included — fails with `TooManyAttempts`. -/
theorem C9_three_strikes (s : Store) (email : String) (record : VerificationRecord)
    (w1 w2 w3 c4 : String) (n1 n2 n3 n4 : Nat)
    (hrec : getRecord s email = some record)
    (hfresh : record.attempts = 0)
    (he1 : ¬ n1 > record.expiresAt) (he2 : ¬ n2 > record.expiresAt)
    (he3 : ¬ n3 > record.expiresAt) (he4 : ¬ n4 > record.expiresAt)
    (hw1 : record.otp ≠ w1) (hw2 : record.otp ≠ w2) (hw3 : record.otp ≠ w3) :
    (verifyOTP s email w1 n1).1 = .invalidCode ∧
    getRecord (verifyOTP s email w1 n1).2 email = some { record with attempts := 1 } ∧
    (verifyOTP (verifyOTP s email w1 n1).2 email w2 n2).1 = .invalidCode ∧
    getRecord (verifyOTP (verifyOTP s email w1 n1).2 email w2 n2).2 email =
      some { record with attempts := 2 } ∧
    (verifyOTP (verifyOTP (verifyOTP s email w1 n1).2 email w2 n2).2 email w3 n3).1 =
      .invalidCode ∧
    getRecord
        (verifyOTP (verifyOTP (verifyOTP s email w1 n1).2 email w2 n2).2 email w3 n3).2
        email = some { record with attempts := 3 } ∧
    (verifyOTP
        (verifyOTP (verifyOTP (verifyOTP s email w1 n1).2 email w2 n2).2 email w3 n3).2
        email c4 n4).1 = .tooManyAttempts := by
  obtain ⟨p1, -, q1⟩ := verifyOTP_invalid_step s email w1 n1 record hrec he1 (by omega) hw1
  rw [hfresh] at q1
  obtain ⟨p2, -, q2⟩ :=
    verifyOTP_invalid_step (verifyOTP s email w1 n1).2 email w2 n2
      { record with attempts := 1 } q1 he2 (by show (1:Nat) < 3; norm_num) hw2
  obtain ⟨p3, -, q3⟩ :=
    verifyOTP_invalid_step (verifyOTP (verifyOTP s email w1 n1).2 email w2 n2).2 email w3 n3
      { record with attempts := 2 } q2 he3 (by show (2:Nat) < 3; norm_num) hw3
  have p4 :=
    verifyOTP_locked_step
      (verifyOTP (verifyOTP (verifyOTP s email w1 n1).2 email w2 n2).2 email w3 n3).2
      email c4 n4 { record with attempts := 3 } q3 he4 (by show (3:Nat) ≥ 3; norm_num)
  exact ⟨p1, q1, p2, q2, p3, q3, by rw [p4]⟩

/-- C9 witness: the three-strikes scenario on a concrete fresh record. -/
theorem C9_witness :
    (verifyOTP
        (verifyOTP (verifyOTP (verifyOTP [⟨"a@x.com", "123456", 0, 9000⟩]
              "a@x.com" "000001" 1).2
            "a@x.com" "000002" 2).2
          "a@x.com" "000003" 3).2
        "a@x.com" "123456" 4).1 = .tooManyAttempts :=
  (C9_three_strikes [⟨"a@x.com", "123456", 0, 9000⟩] "a@x.com"
    ⟨"a@x.com", "123456", 0, 9000⟩ "000001" "000002" "000003" "123456" 1 2 3 4
    rfl rfl (by decide) (by decide) (by decide) (by decide)
    (by decide) (by decide) (by decide)).2.2.2.2.2.2

/-- C10: an `InvalidCode` failure performs exactly the attempts-increment
write: the new store is the update that sets `attempts` on the email's
rows and touches no other field and no other row; the stored code and
expiry survive unchanged, so the issued code still succeeds later while
the counter stays below 3 and the record is unexpired. -/
theorem C10_invalid_increments_only (s : Store) (email otp : String) (now : Nat)
    (record : VerificationRecord)
    (hrec : getRecord s email = some record)
    (hexp : ¬ now > record.expiresAt)
    (hatt : record.attempts < 3)
    (hne : record.otp ≠ otp) :
    (verifyOTP s email otp now).1 = .invalidCode ∧
    (verifyOTP s email otp now).2 =
      updateByEmail s email (fun x => { x with attempts := record.attempts + 1 }) ∧
    getRecord (verifyOTP s email otp now).2 email =
      some { record with attempts := record.attempts + 1 } ∧
    (∀ x ∈ s, x.email ≠ email → x ∈ (verifyOTP s email otp now).2) ∧
    (record.attempts + 1 < 3 → ∀ now2 : Nat, ¬ now2 > record.expiresAt →
      (verifyOTP (verifyOTP s email otp now).2 email record.otp now2).1 = .success) := by
  obtain ⟨p, hstore, q⟩ := verifyOTP_invalid_step s email otp now record hrec hexp hatt hne
  refine ⟨p, hstore, q, ?_, ?_⟩
  · intro x hx hxe
    rw [hstore]
    exact List.mem_map.mpr ⟨x, hx, by rw [if_neg hxe]⟩
  · intro hlt now2 hexp2
    rw [verifyOTP_eq, q]
    dsimp only
    rw [if_neg hexp2, if_neg (by simpa using by omega : ¬ record.attempts + 1 ≥ 3),
      if_neg (by simp)]

/-- C10 witness: a concrete wrong submission leaves code and expiry in
place and only bumps `attempts`; the real code then still succeeds. -/
theorem C10_witness :
    (verifyOTP [⟨"a@x.com", "123456", 0, 9000⟩] "a@x.com" "000000" 1).1 = .invalidCode ∧
    (verifyOTP (verifyOTP [⟨"a@x.com", "123456", 0, 9000⟩] "a@x.com" "000000" 1).2
        "a@x.com" "123456" 2).1 = .success := by
  have hc := C10_invalid_increments_only [⟨"a@x.com", "123456", 0, 9000⟩]
    "a@x.com" "000000" 1 ⟨"a@x.com", "123456", 0, 9000⟩
    rfl (by decide) (by decide) (by decide)
  exact ⟨hc.1, hc.2.2.2.2 (by decide) 2 (by decide)⟩

/-- C8: the sweep deletes exactly the rows whose `expiresAt` has passed —
every other row, locked-but-unexpired ones included, survives — and it is
idempotent.  (The operation is total: the source's catch block swallows
any row error, so no failure reaches the caller.) -/
theorem C8_sweep_exact_and_idempotent (s : Store) (now : Nat) :
    (∀ r, r ∈ cleanupExpiredOTPs s now ↔ r ∈ s ∧ ¬ r.expiresAt < now) ∧
    cleanupExpiredOTPs (cleanupExpiredOTPs s now) now = cleanupExpiredOTPs s now := by
  constructor
  · intro r
    unfold cleanupExpiredOTPs
    simp [List.mem_filter]
  · unfold cleanupExpiredOTPs
    rw [List.filter_filter]
    simp

/-! The generated code as a decimal string. -/

/-- The numeric value of a decimal digit character. -/
def charToDigit (c : Char) : Nat :=
  c.toNat - 48

/-- Reads a decimal string back into the number it denotes. -/
def decodeDecimal (str : String) : Nat :=
  Nat.ofDigits 10 ((str.data.map charToDigit).reverse)

theorem charToDigit_decimalDigitChar : ∀ d : Nat, d < 10 →
    charToDigit (decimalDigitChar d) = d := by decide

theorem decodeDecimal_toDecimalString (n : Nat) :
    decodeDecimal (toDecimalString n) = n := by
  unfold decodeDecimal toDecimalString decimalDigitChars
  by_cases h : n = 0
  · subst h
    decide
  · rw [if_neg h]
    rw [List.map_map]
    have hmap : (Nat.digits 10 n).reverse.map (charToDigit ∘ decimalDigitChar) =
        (Nat.digits 10 n).reverse := by
      rw [List.map_congr_left (fun d hd => ?_)]
      · exact List.map_id' _
      · have hd10 : d < 10 :=
          Nat.digits_lt_base (by norm_num) (List.mem_reverse.mp hd)
        exact charToDigit_decimalDigitChar d hd10
    rw [hmap, List.reverse_reverse, Nat.ofDigits_digits]

theorem toDecimalString_injective (m n : Nat)
    (h : toDecimalString m = toDecimalString n) : m = n := by
  have := congrArg decodeDecimal h
  rwa [decodeDecimal_toDecimalString, decodeDecimal_toDecimalString] at this

theorem cryptoRandomInt_otp_bounds (r : Nat) :
    100000 ≤ cryptoRandomInt 100000 999999 r ∧
      cryptoRandomInt 100000 999999 r ≤ 999998 := by
  unfold cryptoRandomInt
  have := Nat.mod_lt r (show 0 < 999999 - 100000 by norm_num)
  omega

theorem decimalDigitChar_isDigit : ∀ d : Nat, d < 10 →
    (decimalDigitChar d).isDigit = true := by decide

theorem toDecimalString_sixDigits (n : Nat) (h1 : 100000 ≤ n) (h2 : n ≤ 999998) :
    (toDecimalString n).length = 6 ∧
      ∀ c ∈ (toDecimalString n).data, c.isDigit = true := by
  have hn : n ≠ 0 := by omega
  have hlen : (Nat.digits 10 n).length = 6 := by
    rw [Nat.digits_len 10 n (by norm_num) hn]
    have hlog : Nat.log 10 n = 5 :=
      Nat.log_eq_of_pow_le_of_lt_pow (by norm_num; omega) (by norm_num; omega)
    omega
  unfold toDecimalString decimalDigitChars
  rw [if_neg hn]
  constructor
  · show (String.mk _).length = 6
    simp [String.length, hlen]
  · intro c hc
    obtain ⟨d, hd, hcd⟩ := List.mem_map.mp hc
    have hd10 : d < 10 :=
      Nat.digits_lt_base (by norm_num) (List.mem_reverse.mp hd)
    rw [← hcd]
    exact decimalDigitChar_isDigit d hd10

/-- C5, amended: every code returned by `generateOTP` is the 6-digit
decimal string of a value drawn uniformly from the *inclusive* range
`[100000, 999998]` — `crypto.randomInt`'s upper bound is exclusive, so
999999 itself is never produced; every value of that range is a possible
output, and over one period of the randomness each output arises from
exactly one draw (uniformity). -/
theorem C5_code_range (s : Store) (email : String) (now : Nat) :
    (∀ r : Nat, (generateOTPService s email r now).1 = generateOTP r) ∧
    (∀ r : Nat, ∃ n, 100000 ≤ n ∧ n ≤ 999998 ∧ generateOTP r = toDecimalString n) ∧
    (∀ r : Nat, (generateOTP r).length = 6 ∧
      ∀ c ∈ (generateOTP r).data, c.isDigit = true) ∧
    (∀ n, 100000 ≤ n → n ≤ 999998 → ∃ r, generateOTP r = toDecimalString n) ∧
    (∀ r₁ r₂ : Nat, r₁ < 899999 → r₂ < 899999 →
      generateOTP r₁ = generateOTP r₂ → r₁ = r₂) := by
  refine ⟨fun r => generateOTPService_fst s email r now, fun r => ?_, fun r => ?_,
    fun n hn1 hn2 => ?_, fun r₁ r₂ hr₁ hr₂ heq => ?_⟩
  · obtain ⟨hb1, hb2⟩ := cryptoRandomInt_otp_bounds r
    exact ⟨cryptoRandomInt 100000 999999 r, hb1, hb2, rfl⟩
  · obtain ⟨hb1, hb2⟩ := cryptoRandomInt_otp_bounds r
    exact toDecimalString_sixDigits _ hb1 hb2
  · refine ⟨n - 100000, ?_⟩
    unfold generateOTP cryptoRandomInt
    rw [Nat.mod_eq_of_lt (by omega), show 100000 + (n - 100000) = n by omega]
  · unfold generateOTP at heq
    have := toDecimalString_injective _ _ heq
    unfold cryptoRandomInt at this
    rw [Nat.mod_eq_of_lt (by omega), Nat.mod_eq_of_lt (by omega)] at this
    omega

/-- C5 counterexample: no draw of the randomness makes `generateOTP`
return the string 999999 — the top value of the claim's inclusive range is
unreachable because `crypto.randomInt(100000, 999999)` excludes its upper
bound. -/
theorem C5_counterexample : ¬ ∃ r : Nat, generateOTP r = "999999" := by
  rintro ⟨r, hr⟩
  obtain ⟨hb1, hb2⟩ := cryptoRandomInt_otp_bounds r
  unfold generateOTP at hr
  have hval := congrArg decodeDecimal hr
  rw [decodeDecimal_toDecimalString] at hval
  have h9 : decodeDecimal "999999" = 999999 := by decide
  omega

/-- C5 witness: 999998, the true top of the range, is reachable. -/
theorem C5_witness : ∃ r : Nat, generateOTP r = toDecimalString 999998 :=
  (C5_code_range [] "a@x.com" 0).2.2.2.1 999998 (by norm_num) (by norm_num)

end OTP
